import Mathlib

/-!
Verification of the presence + message fan-out core of the chat-app backend.

The core lives in `backend/src/lib/socket.js`: a mutable object `userSocketMap`
mapping user identifiers to socket identifiers, mutated on socket connect and
disconnect, with the full key set broadcast as the `getOnlineUsers` event after
every mutation, and targeted delivery (`newMessage`) performed by looking the
receiver up in the map.  A JavaScript object with string keys is modelled as an
association list whose keys are pairwise distinct, kept in insertion order
(`obj[k] = v` overwrites in place or appends; `delete obj[k]` removes;
`Object.keys` lists keys in that order).

The HTTP routing surface is modelled from `backend/src/routes/auth_routes.js`
and the message router.
-/

set_option autoImplicit false

namespace ChatApp

/-- The Presence Registry: the `userSocketMap` object, as an association list
from user identifier to socket identifier in insertion order. -/
abbrev Registry := List (String × String)

/-- Modelled from the spec: `userSocketMap[userId] = socket.id` in the
`connection` handler of `backend/src/lib/socket.js` (file absent from this
copy; the README documents the assignment).  JavaScript object assignment
overwrites an existing key in place and appends a fresh key at the end. -/
def register (m : Registry) (u s : String) : Registry :=
  if m.any (fun p => p.1 == u) then
    m.map (fun p => if p.1 == u then (u, s) else p)
  else
    m ++ [(u, s)]

/-- Modelled from the spec: `delete userSocketMap[userId]` in the `disconnect`
handler of `backend/src/lib/socket.js` (file absent from this copy; the README
documents the deletion).  Removes the entry if present, no-op otherwise. -/
def unregister (m : Registry) (u : String) : Registry :=
  m.filter (fun p => p.1 != u)

/-- Whether a user identifier has an entry in the registry. -/
def isOnline (m : Registry) (u : String) : Bool :=
  m.any (fun p => p.1 == u)

/-- Modelled from the spec: `Object.keys(userSocketMap)`, the payload of the
`getOnlineUsers` broadcast. -/
def listOnline (m : Registry) : List String :=
  m.map Prod.fst

/-- Modelled from the spec: `getReceiverSocketId(userId)` in
`backend/src/lib/socket.js` — the map lookup `userSocketMap[userId]`. -/
def getReceiverSocketId (m : Registry) (u : String) : Option String :=
  (m.find? (fun p => p.1 == u)).map Prod.snd

/-- Modelled from the spec: the Fan-out Dispatcher — look the target up in the
registry; if present emit the payload to that socket, otherwise drop the event.
Returns the (unchanged) registry together with the delivery performed, if any:
`some (socketId, payload)` when a send happened, `none` on a silent drop. -/
def deliver {α : Type} (m : Registry) (target : String) (payload : α) :
    Registry × Option (String × α) :=
  match getReceiverSocketId m target with
  | some s => (m, some (s, payload))
  | none => (m, none)

/-! ### Basic lemmas about the registry operations -/

theorem isOnline_iff_mem (m : Registry) (u : String) :
    isOnline m u = true ↔ u ∈ listOnline m := by
  simp [isOnline, listOnline, List.any_eq_true]

theorem listOnline_register (m : Registry) (u s : String) :
    listOnline (register m u s) =
      if isOnline m u then listOnline m else listOnline m ++ [u] := by
  unfold register isOnline listOnline
  by_cases h : m.any (fun p => p.1 == u) = true
  · simp only [h, if_true, List.map_map]
    apply List.map_congr_left
    intro p _
    by_cases hp : p.1 = u
    · simp [hp]
    · simp [hp]
  · simp only [Bool.not_eq_true] at h
    simp [h]

theorem isOnline_register (m : Registry) (v s u : String) :
    isOnline (register m v s) u = if v = u then true else isOnline m u := by
  by_cases hvu : v = u
  · subst hvu
    simp only [if_true]
    rw [isOnline_iff_mem, listOnline_register]
    by_cases h : isOnline m v = true
    · simp only [h, if_true]
      exact (isOnline_iff_mem m v).mp h
    · simp only [Bool.not_eq_true] at h
      simp [h]
  · simp only [hvu, if_false]
    by_cases h : isOnline m u = true
    · rw [h]
      rw [isOnline_iff_mem] at h ⊢
      rw [listOnline_register]
      by_cases h2 : isOnline m v = true
      · simp [h2, h]
      · simp only [Bool.not_eq_true] at h2
        simp [h2, List.mem_append, h]
    · simp only [Bool.not_eq_true] at h
      rw [h, ← Bool.not_eq_true, isOnline_iff_mem, listOnline_register]
      by_cases h2 : isOnline m v = true
      · simp only [h2, if_true]
        rw [← isOnline_iff_mem, h]
        simp
      · simp only [Bool.not_eq_true] at h2
        simp only [h2, Bool.false_eq_true, if_false, List.mem_append,
          List.mem_singleton]
        rw [← isOnline_iff_mem, h]
        simp only [Bool.false_eq_true, false_or]
        intro hc
        exact hvu hc.symm

theorem listOnline_unregister (m : Registry) (v : String) :
    listOnline (unregister m v) = (listOnline m).filter (fun x => x != v) := by
  unfold listOnline unregister
  rw [List.filter_map]
  rfl

theorem isOnline_unregister (m : Registry) (v u : String) :
    isOnline (unregister m v) u = if v = u then false else isOnline m u := by
  by_cases hvu : v = u
  · subst hvu
    simp only [if_true]
    rw [← Bool.not_eq_true, isOnline_iff_mem, listOnline_unregister]
    simp [List.mem_filter]
  · simp only [hvu, if_false]
    by_cases h : isOnline m u = true
    · rw [h, isOnline_iff_mem, listOnline_unregister, List.mem_filter]
      refine ⟨(isOnline_iff_mem m u).mp h, ?_⟩
      simp only [bne_iff_ne, ne_eq]
      intro hc
      exact hvu hc.symm
    · simp only [Bool.not_eq_true] at h
      rw [h, ← Bool.not_eq_true, isOnline_iff_mem, listOnline_unregister,
        List.mem_filter]
      intro hc
      exact absurd ((isOnline_iff_mem m u).mpr hc.1) (by simp [h])

theorem nodup_listOnline_register (m : Registry) (u s : String)
    (h : (listOnline m).Nodup) : (listOnline (register m u s)).Nodup := by
  rw [listOnline_register]
  by_cases hu : isOnline m u = true
  · simpa [hu] using h
  · simp only [Bool.not_eq_true] at hu
    simp only [hu, Bool.false_eq_true, if_false]
    rw [List.nodup_append]
    refine ⟨h, List.nodup_singleton u, ?_⟩
    intro x hx hx1
    simp only [List.mem_singleton] at hx1
    subst hx1
    exact absurd ((isOnline_iff_mem m x).mpr hx) (by simp [hu])

theorem sublist_unregister (m : Registry) (u : String) :
    (unregister m u).Sublist m :=
  List.filter_sublist m

theorem nodup_listOnline_unregister (m : Registry) (u : String)
    (h : (listOnline m).Nodup) : (listOnline (unregister m u)).Nodup :=
  ((sublist_unregister m u).map Prod.fst).nodup h

/-! ### Sequences of registry calls (for the last-write-wins property) -/

/-- A single call to the Presence Registry: `reg u s` is
`register(u, s)`, `unreg u` is `unregister(u)`. -/
inductive RegEvent where
  | reg (u s : String)
  | unreg (u : String)
deriving DecidableEq

/-- Apply one registry call to a registry. -/
def applyEvent (m : Registry) : RegEvent → Registry
  | .reg u s => register m u s
  | .unreg u => unregister m u

/-- Run a sequence of registry calls from a given registry. -/
def runEventsFrom (m : Registry) (es : List RegEvent) : Registry :=
  es.foldl applyEvent m

/-- Run a sequence of registry calls from the initially empty registry
(the initial value of `userSocketMap` is the empty object). -/
def runEvents (es : List RegEvent) : Registry :=
  runEventsFrom [] es

/-- The spec's characterization of being online after a call sequence: the
most recent call mentioning `u` was a `register` (and no `unregister` of `u`
came after it).  Stated by folding over the sequence per user. -/
def specMostRecentIsRegister (es : List RegEvent) (u : String) : Bool :=
  es.foldl
    (fun b e =>
      match e with
      | .reg v _ => if v = u then true else b
      | .unreg v => if v = u then false else b)
    false

theorem isOnline_applyEvent (m : Registry) (e : RegEvent) (u : String) :
    isOnline (applyEvent m e) u =
      (match e with
        | .reg v _ => if v = u then true else isOnline m u
        | .unreg v => if v = u then false else isOnline m u) := by
  cases e with
  | reg v s => exact isOnline_register m v s u
  | unreg v => exact isOnline_unregister m v u

theorem isOnline_runEventsFrom (es : List RegEvent) :
    ∀ (m : Registry) (u : String),
      isOnline (runEventsFrom m es) u =
        es.foldl
          (fun b e =>
            match e with
            | .reg v _ => if v = u then true else b
            | .unreg v => if v = u then false else b)
          (isOnline m u) := by
  induction es with
  | nil => intro m u; rfl
  | cons e rest ih =>
    intro m u
    show isOnline (runEventsFrom (applyEvent m e) rest) u = _
    rw [ih (applyEvent m e) u, isOnline_applyEvent, List.foldl_cons]

theorem isOnline_runEvents (es : List RegEvent) (u : String) :
    isOnline (runEvents es) u = specMostRecentIsRegister es u := by
  unfold runEvents specMostRecentIsRegister
  rw [isOnline_runEventsFrom]
  rfl

theorem nodup_listOnline_runEventsFrom (es : List RegEvent) :
    ∀ m : Registry, (listOnline m).Nodup →
      (listOnline (runEventsFrom m es)).Nodup := by
  induction es with
  | nil => intro m h; exact h
  | cons e rest ih =>
    intro m h
    refine ih (applyEvent m e) ?_
    cases e with
    | reg v s => exact nodup_listOnline_register m v s h
    | unreg v => exact nodup_listOnline_unregister m v h

/-- C1: after any finite sequence of register/unregister calls starting from
the empty registry, `listOnline()` is duplicate-free and contains exactly the
user identifiers whose most recent call in the sequence was a `register` not
followed by an `unregister` of the same identifier. -/
theorem listOnline_runEvents_last_write_wins (es : List RegEvent) :
    (listOnline (runEvents es)).Nodup ∧
      ∀ u : String,
        u ∈ listOnline (runEvents es) ↔ specMostRecentIsRegister es u = true := by
  constructor
  · exact nodup_listOnline_runEventsFrom es [] (by simp [listOnline])
  · intro u
    rw [← isOnline_iff_mem, isOnline_runEvents]

/-! ### Lookup and filter facts about `register` (for last-connection-wins) -/

theorem key_map_overwrite (u s : String) :
    ((fun p : String × String => p.1 == u) ∘
        fun p => if p.1 == u then (u, s) else p) =
      fun p : String × String => p.1 == u := by
  funext q
  by_cases hq : q.1 = u
  · simp [hq]
  · simp [hq]

theorem find?_register_self (m : Registry) (u s : String) :
    (register m u s).find? (fun p => p.1 == u) = some (u, s) := by
  unfold register
  by_cases h : m.any (fun p => p.1 == u) = true
  · simp only [h, if_true]
    rw [List.find?_map, key_map_overwrite]
    have hsome : (m.find? (fun p => p.1 == u)).isSome := by
      rw [List.find?_isSome]
      simpa [List.any_eq_true] using h
    obtain ⟨q0, hq0⟩ := Option.isSome_iff_exists.mp hsome
    have hq0p := List.find?_some hq0
    simp only [beq_iff_eq] at hq0p
    rw [hq0]
    simp [hq0p]
  · simp only [Bool.not_eq_true] at h
    simp only [h, Bool.false_eq_true, if_false, List.find?_append]
    have h1 : m.find? (fun p => p.1 == u) = none := by
      rw [List.find?_eq_none]
      intro p hp
      simp only [List.any_eq_false] at h
      exact h p hp
    rw [h1]
    simp

theorem getReceiverSocketId_register_self (m : Registry) (u s : String) :
    getReceiverSocketId (register m u s) u = some s := by
  unfold getReceiverSocketId
  rw [find?_register_self]
  rfl

theorem filter_key_singleton_of_nodup (m : Registry) (u : String)
    (hnd : (listOnline m).Nodup) (hmem : isOnline m u = true) :
    ∃ v, m.filter (fun q => q.1 == u) = [(u, v)] := by
  induction m with
  | nil => simp [isOnline] at hmem
  | cons p t ih =>
    simp only [listOnline, List.map_cons, List.nodup_cons] at hnd
    by_cases hp : p.1 = u
    · refine ⟨p.2, ?_⟩
      rw [List.filter_cons_of_pos (by simp [hp])]
      have ht : t.filter (fun q => q.1 == u) = [] := by
        rw [List.filter_eq_nil_iff]
        intro q hq
        simp only [beq_iff_eq]
        intro hqu
        exact hnd.1 (by rw [hp, ← hqu]; exact List.mem_map_of_mem Prod.fst hq)
      rw [ht, ← hp]
    · rw [List.filter_cons_of_neg (by simp [hp])]
      apply ih hnd.2
      simp only [isOnline, List.any_cons, Bool.or_eq_true, beq_iff_eq] at hmem
      rcases hmem with hmem | hmem
      · exact absurd hmem hp
      · exact hmem

theorem filter_register_self (m : Registry) (u s : String)
    (hnd : (listOnline m).Nodup) :
    (register m u s).filter (fun q => q.1 == u) = [(u, s)] := by
  unfold register
  by_cases h : m.any (fun p => p.1 == u) = true
  · simp only [h, if_true]
    rw [List.filter_map, key_map_overwrite]
    obtain ⟨v, hv⟩ := filter_key_singleton_of_nodup m u hnd h
    rw [hv]
    simp
  · simp only [Bool.not_eq_true] at h
    simp only [h, Bool.false_eq_true, if_false, List.filter_append]
    have h1 : m.filter (fun q => q.1 == u) = [] := by
      rw [List.filter_eq_nil_iff]
      intro p hp
      simp only [List.any_eq_false] at h
      exact h p hp
    rw [h1]
    simp

/-- C2: the registry operations preserve the at-most-one-entry-per-user
invariant (duplicate-free key list), and registering the same user twice with
different handles leaves exactly one entry for that user, bound to the second
handle; a subsequent `deliver` to that user reaches only the second handle. -/
theorem register_twice_last_connection_wins (m : Registry) (u h1 h2 : String)
    (hnd : (listOnline m).Nodup) (hne : h1 ≠ h2) :
    (∀ v s, (listOnline (register m v s)).Nodup) ∧
    (∀ v, (listOnline (unregister m v)).Nodup) ∧
    (register (register m u h1) u h2).filter (fun q => q.1 == u) = [(u, h2)] ∧
    ∀ (α : Type) (pl : α),
      deliver (register (register m u h1) u h2) u pl =
        (register (register m u h1) u h2, some (h2, pl)) := by
  refine ⟨fun v s => nodup_listOnline_register m v s hnd,
    fun v => nodup_listOnline_unregister m v hnd, ?_, ?_⟩
  · exact filter_register_self (register m u h1) u h2
      (nodup_listOnline_register m u h1 hnd)
  · intro α pl
    unfold deliver
    rw [getReceiverSocketId_register_self]

/-- Witness for C2 at a concrete input: user `"u1"` registered first with
socket `"s1"`, then with socket `"s2"`. -/
theorem register_twice_last_connection_wins_witness :
    (listOnline ([] : Registry)).Nodup ∧ ("s1" : String) ≠ "s2" ∧
    (register (register [] "u1" "s1") "u1" "s2").filter
        (fun q => q.1 == "u1") = [("u1", "s2")] ∧
    deliver (register (register [] "u1" "s1") "u1" "s2") "u1" "hello" =
      (register (register [] "u1" "s1") "u1" "s2", some ("s2", "hello")) := by
  refine ⟨by simp [listOnline], by decide, ?_, ?_⟩
  · exact (register_twice_last_connection_wins [] "u1" "s1" "s2"
      (by simp [listOnline]) (by decide)).2.2.1
  · exact (register_twice_last_connection_wins [] "u1" "s1" "s2"
      (by simp [listOnline]) (by decide)).2.2.2 String "hello"

/-- C3: delivering to a user identifier that is not registered performs no
send and leaves the registry unchanged (`deliver` is a total function, so no
error is raised). -/
theorem deliver_absent_silent_drop (m : Registry) (u : String)
    (h : isOnline m u = false) (α : Type) (pl : α) :
    deliver m u pl = (m, none) := by
  unfold deliver getReceiverSocketId
  have h1 : m.find? (fun p => p.1 == u) = none := by
    rw [List.find?_eq_none]
    intro p hp
    simp only [isOnline, List.any_eq_false] at h
    exact h p hp
  rw [h1]
  rfl

/-- Witness for C3 at a concrete input: `"u2"` is not connected and
`deliver("u2", "hi")` drops silently without touching the registry. -/
theorem deliver_absent_silent_drop_witness :
    isOnline [("u1", "s1")] "u2" = false ∧
    deliver [("u1", "s1")] "u2" "hi" = ([("u1", "s1")], none) :=
  ⟨by decide, deliver_absent_silent_drop [("u1", "s1")] "u2" (by decide)
    String "hi"⟩

/-! ### Connection Lifecycle Manager -/

/-- Server-side socket state: the presence registry together with the list of
currently-open socket identifiers. -/
structure ServerState where
  registry : Registry
  openSockets : List String
deriving DecidableEq

/-- The server's initial state: empty `userSocketMap`, no open sockets. -/
def initState : ServerState :=
  ⟨[], []⟩

/-- Modelled from the spec: `io.emit("getOnlineUsers", Object.keys(userSocketMap))`
— sends the current online-user list to every open socket.  One
`(socketId, payload)` pair per open socket. -/
def broadcastOnline (st : ServerState) : List (String × List String) :=
  st.openSockets.map (fun sid => (sid, listOnline st.registry))

/-- Modelled from the spec: the Socket.IO `connection` handler of
`backend/src/lib/socket.js` (file absent from this copy; the README documents
it).  The socket is accepted (added to the open set); the handshake query's
`userId` is registered only when present and truthy (`if (userId)` — absent or
empty-string identifiers are silently not registered); then the updated online
list is broadcast to every open socket. -/
def handleConnect (st : ServerState) (uid : Option String) (sid : String) :
    ServerState × List (String × List String) :=
  let withSocket : ServerState := ⟨st.registry, st.openSockets ++ [sid]⟩
  let st2 : ServerState :=
    match uid with
    | some u =>
        if u = "" then withSocket
        else ⟨register withSocket.registry u sid, withSocket.openSockets⟩
    | none => withSocket
  (st2, broadcastOnline st2)

/-- Modelled from the spec: the `disconnect` handler — the socket is removed
from the open set, `delete userSocketMap[userId]` runs for the connection's
handshake identifier when one was supplied, then the updated online list is
broadcast to the remaining open sockets. -/
def handleDisconnect (st : ServerState) (uid : Option String) (sid : String) :
    ServerState × List (String × List String) :=
  let remaining := st.openSockets.filter (fun x => x != sid)
  let st2 : ServerState :=
    match uid with
    | some u => ⟨unregister st.registry u, remaining⟩
    | none => ⟨st.registry, remaining⟩
  (st2, broadcastOnline st2)

theorem broadcastOnline_spec (st : ServerState) :
    (broadcastOnline st).map Prod.fst = st.openSockets ∧
    ∀ pr ∈ broadcastOnline st, pr.2 = listOnline st.registry := by
  constructor
  · rw [broadcastOnline, List.map_map]
    exact List.map_id _
  · intro pr hpr
    simp only [broadcastOnline, List.mem_map] at hpr
    obtain ⟨x, _, hx⟩ := hpr
    rw [← hx]

/-- C4: after a connect and after a disconnect, the `getOnlineUsers` payload
broadcast to every currently-open socket is `listOnline()` of the
post-mutation registry — one message per open socket, never a pre-mutation
snapshot. -/
theorem broadcast_is_post_mutation_listOnline (st : ServerState)
    (uid : Option String) (sid : String) :
    ((handleConnect st uid sid).2.map Prod.fst =
        (handleConnect st uid sid).1.openSockets ∧
      ∀ pr ∈ (handleConnect st uid sid).2,
        pr.2 = listOnline (handleConnect st uid sid).1.registry) ∧
    ((handleDisconnect st uid sid).2.map Prod.fst =
        (handleDisconnect st uid sid).1.openSockets ∧
      ∀ pr ∈ (handleDisconnect st uid sid).2,
        pr.2 = listOnline (handleDisconnect st uid sid).1.registry) :=
  ⟨⟨(broadcastOnline_spec (handleConnect st uid sid).1).1,
    (broadcastOnline_spec (handleConnect st uid sid).1).2⟩,
   ⟨(broadcastOnline_spec (handleDisconnect st uid sid).1).1,
    (broadcastOnline_spec (handleDisconnect st uid sid).1).2⟩⟩

/-- Witness for C4 at a concrete input: `"u1"` connects on `"s1"` from the
initial state; the broadcast it receives carries the post-mutation list. -/
theorem broadcast_is_post_mutation_listOnline_witness :
    ("s1", ["u1"]) ∈ (handleConnect initState (some "u1") "s1").2 ∧
    ("s1", ["u1"]).2 =
      listOnline (handleConnect initState (some "u1") "s1").1.registry :=
  ⟨by decide,
   (broadcast_is_post_mutation_listOnline initState (some "u1") "s1").1.2
     ("s1", ["u1"]) (by decide)⟩

/-! ### Concrete connect/disconnect scenario (C5) and silent-degrade (C6) -/

/-- Scenario state after `"u1"` connects on socket `"s1"`. -/
def scenarioAfterU1 : ServerState × List (String × List String) :=
  handleConnect initState (some "u1") "s1"

/-- Scenario state after `"u2"` then connects on socket `"s2"`. -/
def scenarioAfterU2 : ServerState × List (String × List String) :=
  handleConnect scenarioAfterU1.1 (some "u2") "s2"

/-- Scenario state after `"u1"` then disconnects. -/
def scenarioAfterDisc : ServerState × List (String × List String) :=
  handleDisconnect scenarioAfterU2.1 (some "u1") "s1"

/-- C5: after `"u1"` and `"u2"` connect, the `getOnlineUsers` broadcast goes
to both open sockets and its payload is the set `{"u1", "u2"}`; after `"u1"`
disconnects, the remaining socket `"s2"` receives payload equal to the set
`{"u2"}`. -/
theorem scenario_two_connects_one_disconnect :
    (scenarioAfterU2.2.map Prod.fst = ["s1", "s2"] ∧
      ∀ pr ∈ scenarioAfterU2.2,
        pr.2.toFinset = ({"u1", "u2"} : Finset String)) ∧
    (scenarioAfterDisc.2.map Prod.fst = ["s2"] ∧
      ∀ pr ∈ scenarioAfterDisc.2,
        pr.2.toFinset = ({"u2"} : Finset String)) := by
  refine ⟨⟨?_, ?_⟩, ?_, ?_⟩ <;> decide

/-- Witness for C5 at a concrete input: socket `"s1"` receives the
`{"u1", "u2"}` broadcast after the second connect. -/
theorem scenario_two_connects_one_disconnect_witness :
    ("s1", ["u1", "u2"]) ∈ scenarioAfterU2.2 ∧
    ("s1", ["u1", "u2"]).2.toFinset = ({"u1", "u2"} : Finset String) :=
  ⟨by decide,
   scenario_two_connects_one_disconnect.1.2 ("s1", ["u1", "u2"]) (by decide)⟩

theorem deliver_sends_to_registered_handle (m : Registry) (u : String)
    {α : Type} (pl : α) (s : String) (pl2 : α)
    (h : (deliver m u pl).2 = some (s, pl2)) :
    ∃ k, (k, s) ∈ m := by
  unfold deliver at h
  rcases hgr : getReceiverSocketId m u with _ | s0
  · rw [hgr] at h
    simp at h
  · rw [hgr] at h
    have h2 : some (s0, pl) = some (s, pl2) := h
    have hs0 : s0 = s := congrArg Prod.fst (Option.some.inj h2)
    subst hs0
    unfold getReceiverSocketId at hgr
    rcases hf : m.find? (fun p => p.1 == u) with _ | q
    · rw [hf] at hgr
      simp at hgr
    · rw [hf] at hgr
      simp only [Option.map_some'] at hgr
      have hq2 : q.2 = s0 := Option.some.inj hgr
      refine ⟨q.1, ?_⟩
      rw [← hq2]
      have hq : q ∈ m := List.mem_of_find?_eq_some hf
      simpa using hq

/-- C6: a connection whose handshake carries an absent or empty user
identifier is still accepted (its socket joins the open set) but is never
registered: the registry — hence `listOnline()` — is unchanged, and as long
as the fresh socket identifier is not a registered handle, no targeted
`deliver` ever sends to it. -/
theorem connect_without_userId_silent_degrade (st : ServerState)
    (uid : Option String) (sid : String)
    (hmal : uid = none ∨ uid = some "")
    (hfresh : ∀ q ∈ st.registry, q.2 ≠ sid) :
    sid ∈ (handleConnect st uid sid).1.openSockets ∧
    (handleConnect st uid sid).1.registry = st.registry ∧
    listOnline (handleConnect st uid sid).1.registry = listOnline st.registry ∧
    ∀ (u : String) (pl : String) (s : String),
      (deliver (handleConnect st uid sid).1.registry u pl).2 = some (s, pl) →
        s ≠ sid := by
  have hreg : (handleConnect st uid sid).1.registry = st.registry := by
    rcases hmal with h | h <;> subst h <;> simp [handleConnect]
  have hsock : sid ∈ (handleConnect st uid sid).1.openSockets := by
    rcases hmal with h | h <;> subst h <;> simp [handleConnect]
  refine ⟨hsock, hreg, by rw [hreg], ?_⟩
  intro u pl s hdel
  rw [hreg] at hdel
  obtain ⟨k, hk⟩ := deliver_sends_to_registered_handle st.registry u pl s pl hdel
  intro hcontra
  subst hcontra
  exact hfresh (k, s) hk rfl

/-- Witness for C6 at a concrete input: a socket `"s9"` connects with no
handshake `userId` while `"u1"` is online on `"s1"`. -/
theorem connect_without_userId_silent_degrade_witness :
    ((none : Option String) = none ∨ (none : Option String) = some "") ∧
    (∀ q ∈ ([("u1", "s1")] : Registry), q.2 ≠ "s9") ∧
    "s9" ∈ (handleConnect ⟨[("u1", "s1")], ["s1"]⟩ none "s9").1.openSockets ∧
    (handleConnect ⟨[("u1", "s1")], ["s1"]⟩ none "s9").1.registry =
      [("u1", "s1")] := by
  have h := connect_without_userId_silent_degrade ⟨[("u1", "s1")], ["s1"]⟩
    none "s9" (Or.inl rfl) (by decide)
  exact ⟨Or.inl rfl, by decide, h.1, h.2.1⟩

/-! ### The unregister contract (C7) -/

/-- C7: `unregister` removes the entry for the user if present, is a no-op on
a registry not containing the user, is idempotent, and `isOnline` agrees with
membership in `listOnline()`. -/
theorem unregister_contract (m : Registry) (u : String) :
    u ∉ listOnline (unregister m u) ∧
    (isOnline m u = false → unregister m u = m) ∧
    unregister (unregister m u) u = unregister m u ∧
    ∀ v : String, isOnline m v = true ↔ v ∈ listOnline m := by
  refine ⟨?_, ?_, ?_, fun v => isOnline_iff_mem m v⟩
  · intro hc
    have h := (isOnline_iff_mem (unregister m u) u).mpr hc
    rw [isOnline_unregister] at h
    simp at h
  · intro h
    unfold unregister
    rw [List.filter_eq_self]
    intro p hp
    simp only [isOnline, List.any_eq_false] at h
    have hpu := h p hp
    simpa using hpu
  · unfold unregister
    rw [List.filter_filter]
    simp

/-- Witness for C7's conditional no-op clause at a concrete input: `"u2"` is
not in the registry, so unregistering it changes nothing. -/
theorem unregister_contract_witness :
    "u2" ∉ listOnline (unregister [("u1", "s1")] "u2") ∧
    unregister [("u1", "s1")] "u2" = [("u1", "s1")] :=
  ⟨(unregister_contract [("u1", "s1")] "u2").1,
   (unregister_contract [("u1", "s1")] "u2").2.1 (by decide)⟩

/-! ### Traces of connection events (C8) -/

/-- A connection-layer event: a socket connecting (with the handshake's
optional `userId`) or disconnecting. -/
inductive ConnEvent where
  | connect (uid : Option String) (sid : String)
  | disconnect (uid : Option String) (sid : String)
deriving DecidableEq

/-- Process one connection event. -/
def stepServer (st : ServerState) : ConnEvent →
    ServerState × List (String × List String)
  | .connect uid sid => handleConnect st uid sid
  | .disconnect uid sid => handleDisconnect st uid sid

/-- Process a list of connection events, collecting the broadcast batch
emitted by each event in order. -/
def runServer (st : ServerState) :
    List ConnEvent → ServerState × List (List (String × List String))
  | [] => (st, [])
  | e :: rest =>
      let r1 := stepServer st e
      let r2 := runServer r1.1 rest
      (r2.1, r1.2 :: r2.2)

/-- The registry calls performed by a list of connection events: a connect
with a present, non-empty `userId` registers it; a disconnect with a present
`userId` unregisters it; anything else touches nothing. -/
def regEventsOf : List ConnEvent → List RegEvent
  | [] => []
  | .connect (some u) sid :: rest =>
      if u = "" then regEventsOf rest else .reg u sid :: regEventsOf rest
  | .connect none _ :: rest => regEventsOf rest
  | .disconnect (some u) _ :: rest => .unreg u :: regEventsOf rest
  | .disconnect none _ :: rest => regEventsOf rest

theorem stepServer_snd (st : ServerState) (e : ConnEvent) :
    (stepServer st e).2 = broadcastOnline (stepServer st e).1 := by
  cases e with
  | connect uid sid => rfl
  | disconnect uid sid => rfl

theorem stepServer_registry (st : ServerState) (e : ConnEvent) :
    (stepServer st e).1.registry = runEventsFrom st.registry (regEventsOf [e]) := by
  cases e with
  | connect uid sid =>
    cases uid with
    | none => rfl
    | some u =>
      by_cases hu : u = ""
      · simp [stepServer, handleConnect, regEventsOf, hu, runEventsFrom]
      · simp [stepServer, handleConnect, regEventsOf, hu, runEventsFrom,
          applyEvent]
  | disconnect uid sid =>
    cases uid with
    | none => rfl
    | some u => rfl

theorem regEventsOf_cons (e : ConnEvent) (rest : List ConnEvent) :
    regEventsOf (e :: rest) = regEventsOf [e] ++ regEventsOf rest := by
  cases e with
  | connect uid sid =>
    cases uid with
    | none => rfl
    | some u =>
      by_cases hu : u = "" <;> simp [regEventsOf, hu]
  | disconnect uid sid =>
    cases uid with
    | none => rfl
    | some u => rfl

theorem runEventsFrom_append (m : Registry) (l1 l2 : List RegEvent) :
    runEventsFrom m (l1 ++ l2) = runEventsFrom (runEventsFrom m l1) l2 := by
  unfold runEventsFrom
  rw [List.foldl_append]

theorem registry_runServer (es : List ConnEvent) :
    ∀ st : ServerState,
      (runServer st es).1.registry = runEventsFrom st.registry (regEventsOf es) := by
  induction es with
  | nil => intro st; rfl
  | cons e rest ih =>
    intro st
    show (runServer (stepServer st e).1 rest).1.registry = _
    rw [ih, regEventsOf_cons, runEventsFrom_append, ← stepServer_registry]

theorem batches_runServer (es : List ConnEvent) :
    ∀ st : ServerState,
      (runServer st es).2.length = es.length ∧
      ∀ (i : Nat) (pr : String × List String),
        pr ∈ (runServer st es).2.getD i [] →
          pr.2 = listOnline (runServer st (es.take (i + 1))).1.registry := by
  induction es with
  | nil =>
    intro st
    refine ⟨rfl, ?_⟩
    intro i pr hpr
    simp [runServer] at hpr
  | cons e rest ih =>
    intro st
    constructor
    · show ((stepServer st e).2 :: (runServer (stepServer st e).1 rest).2).length = _
      simp [(ih (stepServer st e).1).1]
    · intro i pr hpr
      cases i with
      | zero =>
        have h2 : pr ∈ (stepServer st e).2 := hpr
        rw [stepServer_snd] at h2
        have h3 := (broadcastOnline_spec (stepServer st e).1).2 pr h2
        exact h3
      | succ n =>
        have h2 : pr ∈ (runServer (stepServer st e).1 rest).2.getD n [] := hpr
        exact (ih (stepServer st e).1).2 n pr h2

/-- C8: in any sequential trace of connect/disconnect events processed from
the initial server state, the broadcast batch emitted while processing event
`i` shows a user as online exactly when the user's most recent registry call
among the first `i + 1` events was a register — so no broadcast includes a
user before their registration is processed, and none includes them after
their unregistration is processed. -/
theorem broadcast_happens_after_registry_mutation (es : List ConnEvent)
    (i : Nat) (u : String) :
    ∀ pr ∈ (runServer initState es).2.getD i [],
      (u ∈ pr.2 ↔
        specMostRecentIsRegister (regEventsOf (es.take (i + 1))) u = true) := by
  intro pr hpr
  have hb := (batches_runServer es initState).2 i pr hpr
  rw [hb, registry_runServer]
  rw [← isOnline_iff_mem]
  show isOnline (runEvents (regEventsOf (es.take (i + 1)))) u = true ↔ _
  rw [isOnline_runEvents]

/-- Witness for C8 at a concrete input: the one-event trace in which `"u1"`
connects on socket `"s1"`; the first broadcast shows `"u1"` online. -/
theorem broadcast_happens_after_registry_mutation_witness :
    ("s1", ["u1"]) ∈
      (runServer initState [ConnEvent.connect (some "u1") "s1"]).2.getD 0 [] ∧
    ("u1" ∈ ["u1"] ↔
      specMostRecentIsRegister
        (regEventsOf ([ConnEvent.connect (some "u1") "s1"].take 1)) "u1" = true) :=
  ⟨by decide,
   broadcast_happens_after_registry_mutation
     [ConnEvent.connect (some "u1") "s1"] 0 "u1" ("s1", ["u1"]) (by decide)⟩

/-! ### HTTP routing surface (C9, C10) -/

/-- An HTTP method used by the routers. -/
inductive Method where
  | get
  | post
  | put
deriving DecidableEq

/-- A request handler or middleware referenced by the routers. -/
inductive Handler where
  | signup
  | login
  | logout
  | updateProfile
  | checkAuth
  | protectRoute
  | getUsersForSidebar
  | getMessages
  | sendMessage
deriving DecidableEq

/-- A registered route: method, path, and the handler chain dispatched in
order (middleware first). -/
structure Route where
  method : Method
  path : String
  chain : List Handler
deriving DecidableEq

/-- The auth router, transcribed from
`src/backend/src/routes/auth_routes.js`: `router.post("/signup", signup)`,
`router.post("/login", login)`, `router.post("/logout", logout)`,
`router.put("/update-profile", protectRoute, updateProfile)`,
`router.get("/check", protectRoute, checkAuth)`. -/
def authRoutes : List Route :=
  [ ⟨.post, "/signup", [.signup]⟩,
    ⟨.post, "/login", [.login]⟩,
    ⟨.post, "/logout", [.logout]⟩,
    ⟨.put, "/update-profile", [.protectRoute, .updateProfile]⟩,
    ⟨.get, "/check", [.protectRoute, .checkAuth]⟩ ]

/-- Modelled from the spec: the message router
(`backend/src/routes/message.route.js`, absent from this copy; the README's
API reference documents `GET /users`, `GET /:id`, `POST /send/:id`, all
authenticated). -/
def messageRoutes : List Route :=
  [ ⟨.get, "/users", [.protectRoute, .getUsersForSidebar]⟩,
    ⟨.get, "/:id", [.protectRoute, .getMessages]⟩,
    ⟨.post, "/send/:id", [.protectRoute, .sendMessage]⟩ ]

/-- The full HTTP surface: auth routes plus message routes under the
`/messages` mount. -/
def httpSurface : List (Method × String) :=
  authRoutes.map (fun r => (r.method, r.path)) ++
    messageRoutes.map (fun r => (r.method, "/messages" ++ r.path))

/-- C9: the HTTP surface consists of exactly the eight documented
method/path pairs — no duplicates, no extras. -/
theorem http_surface_exactly_documented :
    httpSurface.Nodup ∧
    httpSurface.Perm
      [(Method.post, "/signup"), (Method.post, "/login"),
       (Method.post, "/logout"), (Method.get, "/check"),
       (Method.put, "/update-profile"), (Method.get, "/messages/users"),
       (Method.get, "/messages/:id"), (Method.post, "/messages/send/:id")] := by
  constructor
  · decide
  · decide

/-- C10: in the auth router, `GET /check` and `PUT /update-profile` — and
only those — run the `protectRoute` middleware, and they run it before their
handler; `POST /signup`, `POST /login`, and `POST /logout` dispatch straight
to a single handler with no authentication middleware (so a logout request is
processed without token verification). -/
theorem auth_router_middleware_placement :
    (∀ r ∈ authRoutes,
      (Handler.protectRoute ∈ r.chain ↔
        (r.path = "/check" ∨ r.path = "/update-profile"))) ∧
    (∀ r ∈ authRoutes, (r.path = "/check" ∨ r.path = "/update-profile") →
      r.chain.head? = some Handler.protectRoute ∧ r.chain.length = 2) ∧
    (∀ r ∈ authRoutes,
      (r.path = "/signup" ∨ r.path = "/login" ∨ r.path = "/logout") →
        r.chain.length = 1 ∧ Handler.protectRoute ∉ r.chain) ∧
    (Method.post, "/logout") ∈ httpSurface := by
  refine ⟨?_, ?_, ?_, ?_⟩ <;> decide

/-- Witness for C10 at a concrete input: the `GET /check` route carries the
`protectRoute` middleware. -/
theorem auth_router_middleware_placement_witness :
    (⟨Method.get, "/check", [Handler.protectRoute, Handler.checkAuth]⟩ : Route)
        ∈ authRoutes ∧
    (Handler.protectRoute ∈ [Handler.protectRoute, Handler.checkAuth] ↔
      (("/check" : String) = "/check" ∨
        ("/check" : String) = "/update-profile")) :=
  ⟨by decide,
   auth_router_middleware_placement.1
     ⟨Method.get, "/check", [Handler.protectRoute, Handler.checkAuth]⟩
     (by decide)⟩

end ChatApp
